import Mathlib

/-!
Verification of the port-allocation and process-supervision core of the
wireproxy-gui repository against its natural-language specification.

The Python source is shallowly embedded: profile dicts become a `Profile`
record, OS oracles (process liveness, host TCP probe) become boolean-valued
function parameters, machine I/O outcomes become explicit sum types, and
exceptions become `Except`.  Python truthiness of the optional integer
fields (`None` and `0` are falsy) is modelled explicitly.
-/

namespace WireproxyGui

/-- Python truthiness of an optional integer field: `None` and `0` are falsy,
every other integer is truthy. -/
def optTruthy : Option Nat → Bool
  | none => false
  | some n => n != 0

/-- A profile record, the fields of the Python profile dict that the port /
process logic reads (`src/services/*`, `src/ui/main_window.py`). -/
structure Profile where
  name : String
  conf_path : Option String := none
  proxy_port : Option Nat := none
  last_port : Option Nat := none
  pid : Option Nat := none
  running : Bool := false
deriving DecidableEq

/-- `WireProxyService.is_process_running` (wireproxy_service.py:18-43): falsy
pid (None or 0) is reported dead; otherwise the OS liveness oracle `alive`
(signal-0 / exit-code query) decides. -/
def is_process_running (alive : Nat → Bool) : Option Nat → Bool
  | none => false
  | some pid => if pid = 0 then false else alive pid

/-- The set comprehension shared by `find_free_port`, `get_ports_for_menu`,
`_worker_thread` and `_find_and_reserve_port`:
`{p["proxy_port"] for p in profiles if p.get("proxy_port") and is_process_running(p.get("pid"))}`.
Represented as a deduplicated list (Python set membership and `len`). -/
def used_ports (alive : Nat → Bool) (profiles : List Profile) : List Nat :=
  (profiles.filterMap fun p =>
    if optTruthy p.proxy_port && is_process_running alive p.pid then p.proxy_port
    else none).dedup

/-- `PORT_RANGE = (60000, 65535)` (main_window.py:16, auto_connect_service.py:8). -/
def PORT_RANGE_LO : Nat := 60000

def PORT_RANGE_HI : Nat := 65535

/-- Number of ports in the base range. -/
def basePortCount : Nat := PORT_RANGE_HI - PORT_RANGE_LO + 1

/-- `range(start, end + 1)` over the base range, the scan order of
`find_free_port` and `_find_and_reserve_port`. -/
def basePortList : List Nat := List.range' PORT_RANGE_LO basePortCount

/-- The check `last_port and last_port not in used_ports and self.is_port_free_os(last_port)`
of `MainWindow.find_free_port` (main_window.py:400-402). -/
def lastPortOk (used : List Nat) (hostFree : Nat → Bool) : Option Nat → Bool
  | none => false
  | some lp => lp != 0 && !used.contains lp && hostFree lp

/-- The ascending scan of `MainWindow.find_free_port` (main_window.py:404-408):
first port of the base range that is neither in `used_ports` nor busy on the
host. -/
def scan_ports (used : List Nat) (hostFree : Nat → Bool) : Option Nat :=
  basePortList.find? fun port => !used.contains port && hostFree port

/-- `MainWindow.find_free_port` (main_window.py:388-410).  `alive` is the OS
process-liveness oracle, `hostFree` the TCP-probe oracle
(`is_port_free_os`). -/
def find_free_port (alive hostFree : Nat → Bool) (profiles : List Profile)
    (port_limit : Nat) (profile_to_start : Profile) : Option Nat :=
  let used := used_ports alive profiles
  if 0 < port_limit ∧ port_limit ≤ used.length then none
  else if lastPortOk used hostFree profile_to_start.last_port then
    profile_to_start.last_port
  else
    scan_ports used hostFree

/-- `AutoConnectService._find_and_reserve_port` (auto_connect_service.py:105-127).
Returns the chosen port (if any) together with the updated reservation set.
Note: it takes no limit and performs no range restriction beyond the base
range of its scan; the `last_port` branch has no range check at all. -/
def find_and_reserve_port (alive hostFree : Nat → Bool) (profiles : List Profile)
    (reserved : List Nat) (profile : Profile) : Option Nat × List Nat :=
  let used := used_ports alive profiles
  let tryLast : Option Nat :=
    match profile.last_port with
    | none => none
    | some lp =>
        if lp != 0 && !used.contains lp && !reserved.contains lp && hostFree lp then
          some lp
        else none
  match tryLast with
  | some lp => (some lp, lp :: reserved)
  | none =>
      match basePortList.find?
          (fun port => !used.contains port && !reserved.contains port && hostFree port) with
      | some p => (some p, p :: reserved)
      | none => (none, reserved)

/-- `allowed_ports` of `MainWindow.get_ports_for_menu` (main_window.py:277):
`range(PORT_RANGE[0], PORT_RANGE[0] + limit) if limit > 0 else PORT_RANGE`.
When `limit == 0` the Python value is the *tuple* `PORT_RANGE`, and iterating
it yields exactly its two elements. -/
def allowed_ports_for_menu (port_limit : Nat) : List Nat :=
  if 0 < port_limit then List.range' PORT_RANGE_LO port_limit
  else [PORT_RANGE_LO, PORT_RANGE_HI]

/-- `MainWindow.get_ports_for_menu` (main_window.py:268-284): the first
`max_ports` allowed ports, each paired with its in-use flag. -/
def get_ports_for_menu (alive : Nat → Bool) (profiles : List Profile)
    (port_limit : Nat) (max_ports : Nat := 50) : List (Nat × Bool) :=
  let used := used_ports alive profiles
  ((allowed_ports_for_menu port_limit).take max_ports).map
    fun port => (port, used.contains port)

/-- Modelled from the spec (§4.1 `AllowedRange`), for comparison with the
code: the first `limit` ports of the base range, clamped at the top, when
`limit > 0`; the full base range when `limit == 0`. -/
def specAllowedRange (limit : Nat) : List Nat :=
  if 0 < limit then List.range' PORT_RANGE_LO (min limit basePortCount)
  else basePortList

/-! Concrete oracles and profiles used to evaluate the embedded code at
specific inputs. -/

/-- Liveness oracle under which no process is alive. -/
def aliveNone : Nat → Bool := fun _ => false

/-- Host probe under which every port is free. -/
def hostFreeAll : Nat → Bool := fun _ => true

/-- Host probe under which exactly port 60000 is busy (e.g. an external
process squats on it). -/
def hostBusy60000 : Nat → Bool := fun p => p != 60000

/-- A fresh profile with no recorded port. -/
def profileA : Profile := { name := "a" }

/-- A profile whose recorded `last_port` lies outside the base range. -/
def profileLp : Profile := { name := "b", last_port := some 50000 }

/-! Helper lemmas about the scan order. -/

/-- `List.find?` over `range'` (an ascending run) returns the least element
satisfying the predicate. -/
theorem find?_range'_min (pred : Nat → Bool) :
    ∀ (n s p : Nat), (List.range' s n).find? pred = some p →
      ∀ q ∈ List.range' s n, pred q = true → p ≤ q := by
  intro n
  induction n with
  | zero => intro s p h; simp [List.range'] at h
  | succ m ih =>
      intro s p h q hq hpq
      rw [List.range'] at h hq
      by_cases hs : pred s = true
      · rw [List.find?_cons_of_pos _ hs] at h
        cases h
        rcases hq with _ | hq'
        · exact Nat.le_refl _
        · have := (List.mem_range'_1.mp (by assumption)).1
          omega
      · rw [List.find?_cons_of_neg _ hs] at h
        rcases hq with _ | hq'
        · exact absurd hpq hs
        · exact ih (s + 1) p h q (by assumption) hpq

/-- Membership in the base range gives the expected bounds. -/
theorem mem_basePortList {p : Nat} (h : p ∈ basePortList) :
    PORT_RANGE_LO ≤ p ∧ p ≤ PORT_RANGE_HI := by
  rw [basePortList, List.mem_range'_1] at h
  simp only [PORT_RANGE_LO, PORT_RANGE_HI, basePortCount] at *
  omega

/-- What a successful scan guarantees: the port is in the base range, unused,
host-free, and least such. -/
theorem scan_ports_spec (used : List Nat) (hostFree : Nat → Bool) (p : Nat)
    (h : scan_ports used hostFree = some p) :
    PORT_RANGE_LO ≤ p ∧ p ≤ PORT_RANGE_HI ∧ p ∉ used ∧ hostFree p = true ∧
      ∀ q, PORT_RANGE_LO ≤ q → q ≤ PORT_RANGE_HI → q ∉ used → hostFree q = true →
        p ≤ q := by
  rw [scan_ports] at h
  have hmem := List.mem_of_find?_eq_some h
  have hpred := List.find?_some h
  simp only [Bool.and_eq_true, Bool.not_eq_true'] at hpred
  obtain ⟨hc, hf⟩ := hpred
  have hbounds := mem_basePortList hmem
  refine ⟨hbounds.1, hbounds.2, by simpa using hc, hf, ?_⟩
  intro q h1 h2 h3 h4
  refine find?_range'_min _ _ _ _ h q ?_ ?_
  · rw [basePortList] at *
    rw [List.mem_range'_1]
    simp only [PORT_RANGE_LO, PORT_RANGE_HI, basePortCount] at *
    omega
  · simp only [Bool.and_eq_true, Bool.not_eq_true']
    exact ⟨by simpa using h3, h4⟩

/-! ## Claim C1 -/

/-- C1 (counterexample): with `port_limit = 1`, no running profiles, and an
external process on port 60000, `find_free_port` returns 60001 — a port
outside the allowed range that the claim derives from the limit (the first
`limit` ports of the base range). -/
theorem c1_limit_range_counterexample :
    find_free_port aliveNone hostBusy60000 [] 1 profileA = some 60001 ∧
      60001 ∉ specAllowedRange 1 := by
  constructor
  · decide
  · decide

/-- What a successful reserve scan guarantees: unused, unreserved, host-free,
base-range. -/
theorem reserve_scan_spec (used reserved : List Nat) (hostFree : Nat → Bool)
    (q : Nat)
    (h : basePortList.find?
      (fun port => !used.contains port && !reserved.contains port &&
        hostFree port) = some q) :
    q ∉ used ∧ q ∉ reserved ∧ hostFree q = true ∧
      PORT_RANGE_LO ≤ q ∧ q ≤ PORT_RANGE_HI := by
  have hmem := List.mem_of_find?_eq_some h
  have hpred := List.find?_some h
  simp only [Bool.and_eq_true, Bool.not_eq_true'] at hpred
  have hb := mem_basePortList hmem
  exact ⟨by simpa using hpred.1.1, by simpa using hpred.1.2, hpred.2, hb⟩

/-- Soundness of `AutoConnectService._find_and_reserve_port`: never a used or
reserved port, always host-free, and either the recorded `last_port` or a
base-range port. -/
theorem find_and_reserve_sound (alive hostFree : Nat → Bool)
    (profiles : List Profile) (reserved : List Nat) (prof : Profile) (q : Nat)
    (h2 : (find_and_reserve_port alive hostFree profiles reserved prof).1 = some q) :
    q ∉ used_ports alive profiles ∧ q ∉ reserved ∧ hostFree q = true ∧
      (prof.last_port = some q ∨ PORT_RANGE_LO ≤ q ∧ q ≤ PORT_RANGE_HI) := by
  simp only [find_and_reserve_port] at h2
  rcases hlp : prof.last_port with _ | lp
  all_goals simp only [hlp] at h2
  · -- no recorded last port: only the scan branch remains
    rcases hscan : basePortList.find?
        (fun port => !(used_ports alive profiles).contains port &&
          !reserved.contains port && hostFree port) with _ | r
    all_goals simp only [hscan] at h2
    · exact absurd h2 (by simp)
    · simp only [Option.some.injEq] at h2
      cases h2
      have := reserve_scan_spec _ _ _ _ hscan
      exact ⟨this.1, this.2.1, this.2.2.1, Or.inr this.2.2.2⟩
  · -- a last port is recorded: the checked branch or the scan
    by_cases hcond : (lp != 0 && !(used_ports alive profiles).contains lp &&
        !reserved.contains lp && hostFree lp) = true
    · rw [if_pos hcond] at h2
      simp only [Option.some.injEq] at h2
      cases h2
      simp only [Bool.and_eq_true, bne_iff_ne, ne_eq, Bool.not_eq_true'] at hcond
      exact ⟨by simpa using hcond.1.1.2, by simpa using hcond.1.2, hcond.2,
        Or.inl rfl⟩
    · rw [if_neg hcond] at h2
      rcases hscan : basePortList.find?
          (fun port => !(used_ports alive profiles).contains port &&
            !reserved.contains port && hostFree port) with _ | r
      all_goals simp only [hscan] at h2
      · exact absurd h2 (by simp)
      · simp only [Option.some.injEq] at h2
        cases h2
        have := reserve_scan_spec _ _ _ _ hscan
        exact ⟨this.1, this.2.1, this.2.2.1, Or.inr this.2.2.2⟩

/-- C1 (amended): a port returned by `find_free_port` or
`_find_and_reserve_port` is never among the ports of profiles whose liveness
check succeeds (and, for the latter, never among the reserved ports), is
host-free, and either equals the profile's recorded `last_port` or lies in
the full base range 60000–65535; the limit acts only through the count-based
fast-fail of `find_free_port`, never as a range restriction. -/
theorem c1_free_port_soundness (alive hostFree : Nat → Bool)
    (profiles : List Profile) (port_limit : Nat) (reserved : List Nat)
    (prof : Profile) (p q : Nat)
    (h1 : find_free_port alive hostFree profiles port_limit prof = some p)
    (h2 : (find_and_reserve_port alive hostFree profiles reserved prof).1 = some q) :
    (p ∉ used_ports alive profiles ∧ hostFree p = true ∧
      (prof.last_port = some p ∨ PORT_RANGE_LO ≤ p ∧ p ≤ PORT_RANGE_HI)) ∧
    (q ∉ used_ports alive profiles ∧ q ∉ reserved ∧ hostFree q = true ∧
      (prof.last_port = some q ∨ PORT_RANGE_LO ≤ q ∧ q ≤ PORT_RANGE_HI)) := by
  constructor
  · rw [find_free_port] at h1
    split at h1
    · exact absurd h1 (by simp)
    · split at h1
      · rename_i hok
        rw [h1] at hok
        simp only [lastPortOk, Bool.and_eq_true, bne_iff_ne, ne_eq,
          Bool.not_eq_true'] at hok
        exact ⟨by simpa using hok.1.2, hok.2, Or.inl h1⟩
      · have := scan_ports_spec _ _ _ h1
        exact ⟨this.2.2.1, this.2.2.2.1, Or.inr ⟨this.1, this.2.1⟩⟩
  · exact find_and_reserve_sound alive hostFree profiles reserved prof q h2

/-- C1 witness: the amended soundness theorem applied at a concrete input
(no profiles, unlimited, every port free: both searchers pick 60000). -/
theorem c1_free_port_soundness_witness :
    (60000 ∉ used_ports aliveNone [] ∧ hostFreeAll 60000 = true ∧
      (profileA.last_port = some 60000 ∨
        PORT_RANGE_LO ≤ 60000 ∧ 60000 ≤ PORT_RANGE_HI)) ∧
    (60000 ∉ used_ports aliveNone [] ∧ 60000 ∉ ([] : List Nat) ∧
      hostFreeAll 60000 = true ∧
      (profileA.last_port = some 60000 ∨
        PORT_RANGE_LO ≤ 60000 ∧ 60000 ≤ PORT_RANGE_HI)) :=
  c1_free_port_soundness aliveNone hostFreeAll [] 0 [] profileA 60000 60000
    (by decide) (by decide)

/-! ## Claim C2 -/

/-- C2: the allowed port range the claim describes is computed by
`get_ports_for_menu`.  At the failing input `port_limit = 0` the code
evaluates `allowed_ports` to the two-element tuple `PORT_RANGE`, so the menu
iterates exactly the ports 60000 and 65535 instead of the full 5536-port
base range; additionally, for `port_limit = 6000` the computed range extends
past 65535 instead of being clamped. -/
theorem c2_menu_allowed_range_bug :
    allowed_ports_for_menu 0 = [60000, 65535] ∧
    basePortList.length = 5536 ∧
    get_ports_for_menu aliveNone [] 0 = [(60000, false), (65535, false)] ∧
    65600 ∈ allowed_ports_for_menu 6000 := by
  refine ⟨by decide, ?_, by decide, ?_⟩
  · rw [basePortList, List.length_range']
    decide
  · rw [allowed_ports_for_menu]
    simp only [if_pos (by omega : 0 < 6000)]
    rw [List.mem_range'_1]
    simp [PORT_RANGE_LO]

/-! ## Claim C4 -/

/-- C4 (counterexample): a recorded `last_port` of 50000 — outside even the
base range, hence outside every allowed range — is returned by the port
picker as long as it is unused and host-free, instead of falling back to the
ascending scan (which would return 60000). -/
theorem c4_last_port_counterexample :
    find_free_port aliveNone hostFreeAll [] 0 profileLp = some 50000 ∧
      50000 ∉ specAllowedRange 0 ∧
      scan_ports (used_ports aliveNone []) hostFreeAll = some 60000 := by
  refine ⟨by decide, ?_, by decide⟩
  rw [specAllowedRange]
  simp only [lt_irrefl, if_false, basePortList]
  rw [List.mem_range'_1]
  simp [PORT_RANGE_LO, basePortCount]

/-- C4 (amended): provided the count fast-fail has not triggered, the picker
returns `last_port` exactly when it is nonzero, not among the ports of live
profiles, and host-free — with no validation against any allowed range —
and otherwise returns the ascending scan's result, which is the least
base-range port that is unused and host-free. -/
theorem c4_last_port_preference (alive hostFree : Nat → Bool)
    (profiles : List Profile) (port_limit : Nat) (prof : Profile)
    (hfast : ¬(0 < port_limit ∧ port_limit ≤ (used_ports alive profiles).length)) :
    (lastPortOk (used_ports alive profiles) hostFree prof.last_port = true →
      find_free_port alive hostFree profiles port_limit prof = prof.last_port) ∧
    (lastPortOk (used_ports alive profiles) hostFree prof.last_port = false →
      find_free_port alive hostFree profiles port_limit prof
        = scan_ports (used_ports alive profiles) hostFree) ∧
    (∀ p, scan_ports (used_ports alive profiles) hostFree = some p →
      PORT_RANGE_LO ≤ p ∧ p ≤ PORT_RANGE_HI ∧ p ∉ used_ports alive profiles ∧
        hostFree p = true ∧
        ∀ q, PORT_RANGE_LO ≤ q → q ≤ PORT_RANGE_HI →
          q ∉ used_ports alive profiles → hostFree q = true → p ≤ q) := by
  refine ⟨?_, ?_, fun p h => scan_ports_spec _ _ _ h⟩
  · intro hok
    rw [find_free_port]
    rw [if_neg hfast, if_pos hok]
  · intro hko
    rw [find_free_port]
    rw [if_neg hfast, if_neg (by simp [hko])]

/-- C4 witness: the amended theorem at a concrete input — the out-of-range
`last_port` 50000 passes the (range-free) check and is returned. -/
theorem c4_last_port_preference_witness :
    find_free_port aliveNone hostFreeAll [] 0 profileLp = profileLp.last_port :=
  (c4_last_port_preference aliveNone hostFreeAll [] 0 profileLp
    (by decide)).1 (by decide)

/-! ## Explicit-port connect flow (`MainWindow.connect_with_specific_port`) -/

/-- Observable outcome of an explicit-port connect request. -/
inductive ConnectOutcome where
  | declinedOverride
  | portBusyExternal (port : Nat)
  | startAttempted (port : Nat) (stoppedOther : Option String)
deriving DecidableEq

/-- The tail of the flow, `_finish_connecting_specific_port` plus
`ConnectWorker.run` (main_window.py:60-74, 329-348): probe the host at the
requested port and attempt the process start when free.  `hostFree` is the
probe at connect time (in the override path, after the contending profile
was stopped). -/
def finish_connect (hostFree : Nat → Bool) (port : Nat)
    (stoppedOther : Option String) : ConnectOutcome :=
  if hostFree port then .startAttempted port stoppedOther
  else .portBusyExternal port

/-- `MainWindow.connect_with_specific_port` (main_window.py:291-309).
`rowProfile` is `state["profiles"][row]`; `userConfirms` is the answer to
the port-in-use override dialog.  Note: the requested port is never compared
against any allowed range. -/
def connect_with_specific_port (alive hostFree : Nat → Bool)
    (profiles : List Profile) (rowProfile : Profile) (port : Nat)
    (userConfirms : Bool) : ConnectOutcome :=
  match profiles.find?
      (fun p => p.proxy_port == some port && p.name != rowProfile.name) with
  | some other =>
      if is_process_running alive other.pid then
        if userConfirms then finish_connect hostFree port (some other.name)
        else .declinedOverride
      else finish_connect hostFree port none
  | none => finish_connect hostFree port none

/-- `MainWindow.prompt_and_connect` (main_window.py:286-289): the port entry
dialog is created with minimum 60000 and maximum 65535, so the value it can
hand to `connect_with_specific_port` always lies in the base range (but is
not restricted to the limit-derived range). -/
def prompt_port_bounds : Nat × Nat := (PORT_RANGE_LO, PORT_RANGE_HI)

/-! ## Process supervision (`WireProxyService`) -/

/-- `WireProxyService.generate_wireproxy_conf` (wireproxy_service.py:80-86);
`proxyType` is the already-lowercased proxy type string. -/
def generate_wireproxy_conf (wgConf : String) (port : Nat)
    (proxyType : String) : String :=
  let sec := if proxyType = "http" then "http" else "Socks5"
  "WGConfig = \"" ++ wgConf ++ "\"\n\n[" ++ sec ++ "]\nBindAddress = 127.0.0.1:"
    ++ toString port ++ "\n"

/-- The post-spawn fate of the launched process, as observed by the
`time.sleep(0.25)` / `proc.poll()` sequence (wireproxy_service.py:138-139). -/
inductive SpawnResult where
  | spawnRaised
  | exitedImmediately (exitCode : Int)
  | aliveAfterGrace (pid : Nat)
deriving DecidableEq

/-- The log records `start_process` can emit. -/
inductive LogEvent where
  | errorNoPath
  | errorImmediateExit (exitCode : Int)
  | infoStarted (pid : Nat)
  | exceptionStartFailed
deriving DecidableEq

/-- The grace interval `time.sleep(0.25)` of `start_process`
(wireproxy_service.py:138), in milliseconds. -/
def GRACE_SLEEP_MS : Nat := 250

/-- Everything `start_process` produces: the value returned to the caller
(`pid`), the log records, and the generated launch configuration. -/
structure StartResult where
  pid : Option Nat
  log : List LogEvent
  generatedConf : Option String
deriving DecidableEq

/-- `WireProxyService.start_process` (wireproxy_service.py:113-147).  The
caller-visible return value is `StartResult.pid`; the exit code of an
immediately-exiting process reaches only the log. -/
def start_process (pathResolved : Bool) (wgConf : String) (port : Nat)
    (proxyType : String) (spawn : SpawnResult) : StartResult :=
  if !pathResolved then
    { pid := none, log := [.errorNoPath], generatedConf := none }
  else
    let conf := generate_wireproxy_conf wgConf port proxyType
    match spawn with
    | .spawnRaised =>
        { pid := none, log := [.exceptionStartFailed], generatedConf := some conf }
    | .exitedImmediately code =>
        { pid := none, log := [.errorImmediateExit code], generatedConf := some conf }
    | .aliveAfterGrace pid =>
        { pid := some pid, log := [.infoStarted pid], generatedConf := some conf }

/-- `WireProxyService.stop_process` (wireproxy_service.py:149-160): returns
the updated profile and whether a terminate was issued.  Termination happens
only when the pid is truthy and the liveness probe succeeds; the state
clearing is unconditional; `last_port` is updated only when the old
`proxy_port` is truthy. -/
def stop_process (alive : Nat → Bool) (p : Profile) : Profile × Bool :=
  let terminated := optTruthy p.pid && is_process_running alive p.pid
  let p1 := if optTruthy p.proxy_port then { p with last_port := p.proxy_port } else p
  ({ p1 with pid := none, proxy_port := none, running := false }, terminated)

/-! ## Claim C5 -/

/-- A profile contending on port 60005 with a dead process. -/
def profileC : Profile := { name := "c", proxy_port := some 60005, pid := some 9 }

/-- C5 (counterexample): a connect request for port 60005 under
`port_limit = 1` — outside the allowed range derived from the limit — is not
rejected: the flow proceeds straight to a process start on exactly that
port. -/
theorem c5_out_of_range_accepted :
    connect_with_specific_port aliveNone hostFreeAll [profileA] profileA 60005 true
      = ConnectOutcome.startAttempted 60005 none ∧
    60005 ∉ specAllowedRange 1 := by
  constructor <;> decide

/-- C5 (amended): `connect_with_specific_port` performs no range validation
at all: whatever the outcome, the port involved is exactly the requested one
(never clamped), and when no other live profile holds the port the flow goes
straight to the host probe and process start; only the manual entry dialog
bounds input to the base range 60000–65535. -/
theorem connect_outcome_trichotomy (alive hostFree : Nat → Bool)
    (profiles : List Profile) (rowProfile : Profile) (port : Nat)
    (userConfirms : Bool) :
    connect_with_specific_port alive hostFree profiles rowProfile port
        userConfirms = .declinedOverride ∨
    connect_with_specific_port alive hostFree profiles rowProfile port
        userConfirms = .portBusyExternal port ∨
    ∃ so, connect_with_specific_port alive hostFree profiles rowProfile port
        userConfirms = .startAttempted port so := by
  rcases hf : profiles.find?
      (fun p => p.proxy_port == some port && p.name != rowProfile.name)
    with _ | other
  · rcases hh : hostFree port with _ | _
    · right; left; simp [connect_with_specific_port, hf, finish_connect, hh]
    · right; right
      exact ⟨none, by simp [connect_with_specific_port, hf, finish_connect, hh]⟩
  · rcases hr : is_process_running alive other.pid with _ | _
    · rcases hh : hostFree port with _ | _
      · right; left
        simp [connect_with_specific_port, hf, hr, finish_connect, hh]
      · right; right
        exact ⟨none, by simp [connect_with_specific_port, hf, hr, finish_connect, hh]⟩
    · rcases hu : userConfirms with _ | _
      · left; simp [connect_with_specific_port, hf, hr, hu]
      · rcases hh : hostFree port with _ | _
        · right; left
          simp [connect_with_specific_port, hf, hr, hu, finish_connect, hh]
        · right; right
          exact ⟨some other.name,
            by simp [connect_with_specific_port, hf, hr, hu, finish_connect, hh]⟩

/-- C5 (amended): `connect_with_specific_port` performs no range validation
at all: whatever the outcome, the port involved is exactly the requested one
(never clamped), and when no other live profile holds the port the flow goes
straight to the host probe and process start; only the manual entry dialog
bounds input to the base range 60000–65535. -/
theorem c5_no_range_check (alive hostFree : Nat → Bool)
    (profiles : List Profile) (rowProfile : Profile) (port : Nat)
    (userConfirms : Bool) :
    (∀ q so, connect_with_specific_port alive hostFree profiles rowProfile port
        userConfirms = .startAttempted q so → q = port) ∧
    (∀ q, connect_with_specific_port alive hostFree profiles rowProfile port
        userConfirms = .portBusyExternal q → q = port) ∧
    ((∀ p ∈ profiles, p.proxy_port = some port → p.name ≠ rowProfile.name →
        is_process_running alive p.pid = false) →
      connect_with_specific_port alive hostFree profiles rowProfile port
        userConfirms = finish_connect hostFree port none) ∧
    prompt_port_bounds = (60000, 65535) := by
  refine ⟨?_, ?_, ?_, rfl⟩
  · intro q so h
    rcases connect_outcome_trichotomy alive hostFree profiles rowProfile port
        userConfirms with ht | ht | ⟨so', ht⟩
    all_goals rw [ht] at h
    · cases h
    · cases h
    · injection h with h1 h2
      exact h1.symm
  · intro q h
    rcases connect_outcome_trichotomy alive hostFree profiles rowProfile port
        userConfirms with ht | ht | ⟨so', ht⟩
    all_goals rw [ht] at h
    · cases h
    · injection h with h1
      exact h1.symm
    · cases h
  · intro hdead
    rcases hf : profiles.find?
        (fun p => p.proxy_port == some port && p.name != rowProfile.name)
      with _ | other
    · simp [connect_with_specific_port, hf]
    · have hmem := List.mem_of_find?_eq_some hf
      have hpred := List.find?_some hf
      simp only [Bool.and_eq_true, beq_iff_eq, bne_iff_ne, ne_eq] at hpred
      have hd := hdead other hmem hpred.1 hpred.2
      simp [connect_with_specific_port, hf, hd]

/-- C5 witness: the amended theorem at a concrete input — the only profile
holding port 60005 has a dead process, so the request proceeds to
`finish_connect` without any range rejection. -/
theorem c5_no_range_check_witness :
    connect_with_specific_port aliveNone hostFreeAll [profileC] profileA 60005
      true = finish_connect hostFreeAll 60005 none :=
  (c5_no_range_check aliveNone hostFreeAll [profileC] profileA 60005
    true).2.2.1 (by decide)

/-! ## Claim C6 -/

/-- A profile whose `proxy_port` is the (falsy) integer 0. -/
def profileZeroPort : Profile :=
  { name := "z", proxy_port := some 0, last_port := some 7, pid := some 5,
    running := true }

/-- C6 (counterexample): a profile whose `proxy_port` is set to the integer 0
keeps its old `last_port` after `stop_process` — the Python truthiness test
`if profile.get("proxy_port")` skips the update, so `last_port` does not
equal the prior `proxy_port`. -/
theorem c6_zero_port_counterexample :
    (stop_process aliveNone profileZeroPort).1.last_port = some 7 ∧
    profileZeroPort.proxy_port = some 0 ∧
    (stop_process aliveNone profileZeroPort).1.last_port
      ≠ profileZeroPort.proxy_port := by
  refine ⟨by decide, by decide, by decide⟩

/-- C6 (amended): after `stop_process` the profile's `pid` and `proxy_port`
are cleared and `running` is false; when `proxy_port` was set to a nonzero
value beforehand, `last_port` equals it afterwards (a falsy `proxy_port`
leaves `last_port` untouched); and the resulting profile state is the same
whether or not the process was still alive — an already-exited process is
treated as already stopped, with termination issued only for a truthy pid
whose liveness probe succeeds. -/
theorem c6_stop_process_clears (alive : Nat → Bool) (p : Profile) :
    (stop_process alive p).1.pid = none ∧
    (stop_process alive p).1.proxy_port = none ∧
    (stop_process alive p).1.running = false ∧
    (∀ q, p.proxy_port = some q → q ≠ 0 →
      (stop_process alive p).1.last_port = some q) ∧
    (optTruthy p.proxy_port = false →
      (stop_process alive p).1.last_port = p.last_port) ∧
    (stop_process alive p).1 = (stop_process aliveNone p).1 ∧
    (stop_process alive p).2 = (optTruthy p.pid && is_process_running alive p.pid) := by
  refine ⟨rfl, rfl, rfl, ?_, ?_, rfl, rfl⟩
  · intro q hq hq0
    simp only [stop_process]
    rw [if_pos (by rw [hq]; simpa [optTruthy] using hq0)]
    simp [hq]
  · intro hfalsy
    simp only [stop_process]
    rw [if_neg (by simp [hfalsy])]

/-- C6 witness: the amended theorem at a concrete input — a running profile
on port 60001 gets `last_port = 60001` after stopping. -/
theorem c6_stop_process_clears_witness :
    (stop_process aliveNone
      { name := "r", proxy_port := some 60001, last_port := some 60000,
        pid := some 4, running := true } : Profile × Bool).1.last_port
      = some 60001 :=
  (c6_stop_process_clears aliveNone
    { name := "r", proxy_port := some 60001, last_port := some 60000,
      pid := some 4, running := true }).2.2.2.1 60001 rfl (by decide)

/-! ## Claim C7 -/

/-- C7 (counterexample): when the process exits within the grace interval,
the value returned to the caller is `None` — identical for different exit
codes — so the exit code is not surfaced to the caller (it reaches only the
log). -/
theorem c7_exit_code_not_surfaced :
    (start_process true "wg.conf" 60000 "socks" (.exitedImmediately 1)).pid
      = none ∧
    (start_process true "wg.conf" 60000 "socks" (.exitedImmediately 1)).pid
      = (start_process true "wg.conf" 60000 "socks" (.exitedImmediately 2)).pid := by
  constructor <;> rfl

/-- C7 (amended): `start_process` waits a fixed 250 ms grace interval after
spawning; a process that has already exited within it is treated as a launch
failure — the exit code is written to the log and the caller receives no
handle (`None`) — while a process still alive yields its PID. -/
theorem c7_grace_interval_behaviour (wgConf : String) (port : Nat)
    (proxyType : String) :
    GRACE_SLEEP_MS = 250 ∧
    (∀ code, start_process true wgConf port proxyType (.exitedImmediately code)
      = { pid := none, log := [.errorImmediateExit code],
          generatedConf := some (generate_wireproxy_conf wgConf port proxyType) }) ∧
    (∀ pid, start_process true wgConf port proxyType (.aliveAfterGrace pid)
      = { pid := some pid, log := [.infoStarted pid],
          generatedConf := some (generate_wireproxy_conf wgConf port proxyType) }) := by
  exact ⟨rfl, fun code => rfl, fun pid => rfl⟩

/-! ## Auto-connect manager lifecycle (`AutoConnectService`) -/

/-- The shared fields of `AutoConnectService` that the manager lifecycle
touches: `_is_running`, `_reserved_ports`, and a count of `finished` signal
emissions. -/
structure AutoConnectState where
  is_running : Bool
  reserved_ports : List Nat
  finished_emits : Nat
deriving DecidableEq

/-- `AutoConnectService._manager_thread` (auto_connect_service.py:34-66) with
its `try` body abstracted: `body` maps the state at entry to the state at
exit of the body together with a flag recording whether the body raised.
The `finally` block runs unconditionally: reset `_is_running`, clear
`_reserved_ports`, emit `finished`.  Returns the resulting state and the
raised flag. -/
def manager_thread (body : AutoConnectState → AutoConnectState × Bool)
    (s : AutoConnectState) : AutoConnectState × Bool :=
  let r := body s
  ({ r.1 with is_running := false,
              reserved_ports := [],
              finished_emits := r.1.finished_emits + 1 }, r.2)

/-- `AutoConnectService.start` (auto_connect_service.py:25-32), sequentialised
with the manager run it spawns: a no-op when a run is already active
(returned flag `false`), otherwise sets `_is_running` and runs the manager
(returned flag `true`). -/
def auto_connect_start (body : AutoConnectState → AutoConnectState × Bool)
    (s : AutoConnectState) : AutoConnectState × Bool :=
  if s.is_running then (s, false)
  else ((manager_thread body { s with is_running := true }).1, true)

/-! ## Claim C9 -/

/-- C9: whatever the manager body does — including raising — the run ends
with `_is_running` reset, the reservation set empty, and one more `finished`
emission; and a `start` call made while a run is active returns immediately
without launching a manager run. -/
theorem c9_manager_cleanup (body : AutoConnectState → AutoConnectState × Bool)
    (s : AutoConnectState) :
    (s.is_running = true → auto_connect_start body s = (s, false)) ∧
    (manager_thread body s).1.is_running = false ∧
    (manager_thread body s).1.reserved_ports = [] ∧
    (manager_thread body s).1.finished_emits = (body s).1.finished_emits + 1 ∧
    (s.is_running = false →
      (auto_connect_start body s).2 = true ∧
      (auto_connect_start body s).1.is_running = false ∧
      (auto_connect_start body s).1.reserved_ports = []) := by
  refine ⟨?_, rfl, rfl, rfl, ?_⟩
  · intro h
    rw [auto_connect_start, if_pos h]
  · intro h
    rw [auto_connect_start, if_neg (by rw [h]; exact Bool.false_ne_true)]
    exact ⟨rfl, rfl, rfl⟩

/-- A manager body that raises while holding reservations. -/
def bodyRaising : AutoConnectState → AutoConnectState × Bool :=
  fun t => ({ t with reserved_ports := [60000, 60001] }, true)

/-- C9 witness: the cleanup theorem at concrete inputs — a second `start`
during a run is a no-op, and a run whose body raised with reservations held
still ends cleaned up with `finished` emitted. -/
theorem c9_manager_cleanup_witness :
    auto_connect_start bodyRaising
      { is_running := true, reserved_ports := [], finished_emits := 0 }
      = ({ is_running := true, reserved_ports := [], finished_emits := 0 }, false) ∧
    (manager_thread bodyRaising
      { is_running := true, reserved_ports := [], finished_emits := 0 }).1.reserved_ports
      = [] :=
  ⟨(c9_manager_cleanup bodyRaising
      { is_running := true, reserved_ports := [], finished_emits := 0 }).1 rfl,
   (c9_manager_cleanup bodyRaising
      { is_running := true, reserved_ports := [], finished_emits := 0 }).2.2.1⟩

/-! ## Auto-connect worker pool: a transition-system model (Claim C3)

`_worker_thread` (auto_connect_service.py:68-103) and
`_find_and_reserve_port` (105-127) run on up to four OS threads.  The model
below captures every interleaving of their port-relevant actions:

* `snapshot` — the unlocked computation of `used_ports` at entry to
  `_find_and_reserve_port` (lines 106-110), kept worker-locally (it can go
  stale);
* `reserve` — the lock-protected candidate check and `_reserved_ports.add`
  (lines 115-118 / 123-126): candidate not in the (possibly stale)
  `used_ports` snapshot, not currently reserved, and host-free (the probe
  runs inside the lock);
* `startOk` / `startFail` — `wireproxy_service.start_process` (line 91): on
  success the spawned process binds the port (it joins `bound`); processes
  are assumed not to die spontaneously during the run;
* `release` — the lock-protected `_reserved_ports.discard` (lines 93-94);
* `assign` — the profile update `profile["proxy_port"] = port` (lines
  96-99), performed only by the worker whose start succeeded;
* `giveUp` / `skip` — the worker moves on without a port / after a failed
  start.

`bound` starts at an arbitrary set (externally bound ports and profiles
already running before the run). -/

/-- Control point of one auto-connect worker within one loop iteration. -/
inductive WorkerPhase where
  | idle
  | scanning (usedSnap : List Nat)
  | holding (port : Nat)
  | started (port : Nat) (ok : Bool)
  | released (port : Nat) (ok : Bool)
deriving DecidableEq

/-- Shared state of the worker pool. -/
structure PoolState (n : Nat) where
  phase : Fin n → WorkerPhase
  reserved : List Nat
  bound : List Nat
  assigned : List (Fin n × Nat)

/-- Does a worker at this control point hold the port inside the reservation
set (between the locked check-and-add and the locked discard)? -/
def phaseLocks : WorkerPhase → Nat → Prop
  | .holding p, q => q = p
  | .started p _, q => q = p
  | _, _ => False

/-- Does a worker at this control point still claim the port (reserved, or
released after a successful start and about to be assigned)? -/
def phaseClaims : WorkerPhase → Nat → Prop
  | .holding p, q => q = p
  | .started p _, q => q = p
  | .released p true, q => q = p
  | _, _ => False

/-- Ports made host-busy by this worker's control point are recorded in
`bound`; this predicate marks the two points that guarantee it. -/
def phaseBound : WorkerPhase → Nat → Prop
  | .started p true, q => q = p
  | .released p true, q => q = p
  | _, _ => False

/-- The port currently reserved by worker `w` (the claim's "a port reserved
by one worker ... until it is released"). -/
def inLock {n : Nat} (s : PoolState n) (w : Fin n) (p : Nat) : Prop :=
  phaseLocks (s.phase w) p

/-- One interleaved action of the pool. -/
inductive PoolStep (n : Nat) : PoolState n → PoolState n → Prop
  | snapshot (s : PoolState n) (w : Fin n) :
      s.phase w = .idle →
      PoolStep n s { s with
        phase := Function.update s.phase w (.scanning (s.assigned.map Prod.snd)) }
  | reserve (s : PoolState n) (w : Fin n) (p : Nat) (snap : List Nat) :
      s.phase w = .scanning snap →
      p ∉ snap → p ∉ s.reserved → p ∉ s.bound →
      PoolStep n s { s with
        phase := Function.update s.phase w (.holding p),
        reserved := p :: s.reserved }
  | giveUp (s : PoolState n) (w : Fin n) (snap : List Nat) :
      s.phase w = .scanning snap →
      PoolStep n s { s with phase := Function.update s.phase w .idle }
  | startOk (s : PoolState n) (w : Fin n) (p : Nat) :
      s.phase w = .holding p →
      PoolStep n s { s with
        phase := Function.update s.phase w (.started p true),
        bound := p :: s.bound }
  | startFail (s : PoolState n) (w : Fin n) (p : Nat) :
      s.phase w = .holding p →
      PoolStep n s { s with phase := Function.update s.phase w (.started p false) }
  | release (s : PoolState n) (w : Fin n) (p : Nat) (ok : Bool) :
      s.phase w = .started p ok →
      PoolStep n s { s with
        phase := Function.update s.phase w (.released p ok),
        reserved := s.reserved.erase p }
  | assign (s : PoolState n) (w : Fin n) (p : Nat) :
      s.phase w = .released p true →
      PoolStep n s { s with
        phase := Function.update s.phase w .idle,
        assigned := (w, p) :: s.assigned }
  | skip (s : PoolState n) (w : Fin n) (p : Nat) :
      s.phase w = .released p false →
      PoolStep n s { s with phase := Function.update s.phase w .idle }

/-- States reachable during one auto-connect run: all workers start idle,
nothing reserved or assigned, an arbitrary set of ports already host-bound. -/
inductive PoolReachable (n : Nat) : PoolState n → Prop
  | init (bound0 : List Nat) :
      PoolReachable n ⟨fun _ => .idle, [], bound0, []⟩
  | step {s t : PoolState n} :
      PoolReachable n s → PoolStep n s t → PoolReachable n t

/-- The inductive invariant of the pool. -/
structure PoolInv {n : Nat} (s : PoolState n) : Prop where
  res : ∀ w p, phaseLocks (s.phase w) p → p ∈ s.reserved
  bnd : ∀ w p, phaseBound (s.phase w) p → p ∈ s.bound
  asg : ∀ wp ∈ s.assigned, wp.2 ∈ s.bound
  excl : ∀ w v p, w ≠ v → phaseClaims (s.phase w) p → ¬ phaseClaims (s.phase v) p
  fresh : ∀ w p, phaseClaims (s.phase w) p → p ∉ s.assigned.map Prod.snd
  nodup : (s.assigned.map Prod.snd).Nodup

theorem phaseClaims_of_phaseLocks (ph : WorkerPhase) (p : Nat)
    (h : phaseLocks ph p) : phaseClaims ph p := by
  cases ph with
  | idle => simp [phaseLocks] at h
  | scanning snap => simp [phaseLocks] at h
  | holding q => exact h
  | started q b => exact h
  | released q b => simp [phaseLocks] at h

theorem phaseClaims_of_phaseBound (ph : WorkerPhase) (p : Nat)
    (h : phaseBound ph p) : phaseClaims ph p := by
  cases ph with
  | idle => simp [phaseBound] at h
  | scanning snap => simp [phaseBound] at h
  | holding q => simp [phaseBound] at h
  | started q b =>
      cases b with
      | true => exact h
      | false => simp [phaseBound] at h
  | released q b =>
      cases b with
      | true => exact h
      | false => simp [phaseBound] at h

theorem phaseClaims_elim (ph : WorkerPhase) (p : Nat) (h : phaseClaims ph p) :
    phaseLocks ph p ∨ phaseBound ph p := by
  cases ph with
  | idle => simp [phaseClaims] at h
  | scanning snap => simp [phaseClaims] at h
  | holding q => exact Or.inl h
  | started q b => exact Or.inl h
  | released q b =>
      cases b with
      | true => exact Or.inr h
      | false => simp [phaseClaims] at h

/-- A claimed port is recorded in the reservation set or in the bound set. -/
theorem PoolInv.mem_of_claims {n : Nat} {s : PoolState n} (hs : PoolInv s)
    {v : Fin n} {p : Nat} (h : phaseClaims (s.phase v) p) :
    p ∈ s.reserved ∨ p ∈ s.bound := by
  rcases phaseClaims_elim _ _ h with h | h
  · exact Or.inl (hs.res v p h)
  · exact Or.inr (hs.bnd v p h)

theorem pool_inv_init (n : Nat) (bound0 : List Nat) :
    PoolInv (⟨fun _ => .idle, [], bound0, []⟩ : PoolState n) := by
  refine ⟨?_, ?_, ?_, ?_, ?_, ?_⟩
  · intro w p h; simp [phaseLocks] at h
  · intro w p h; simp [phaseBound] at h
  · intro wp h; simp at h
  · intro w v p hne h; simp [phaseClaims] at h
  · intro w p h; simp [phaseClaims] at h
  · simp

theorem pool_inv_step {n : Nat} {s t : PoolState n} (hs : PoolInv s)
    (hstep : PoolStep n s t) : PoolInv t := by
  obtain ⟨res, bnd, asg, excl, fresh, nodup⟩ := hs
  cases hstep with
  | snapshot w hw =>
      refine ⟨?_, ?_, asg, ?_, ?_, nodup⟩
      all_goals dsimp only
      · intro v q h
        by_cases hv : v = w
        · subst hv; rw [Function.update_same] at h; simp [phaseLocks] at h
        · rw [Function.update_noteq hv] at h; exact res v q h
      · intro v q h
        by_cases hv : v = w
        · subst hv; rw [Function.update_same] at h; simp [phaseBound] at h
        · rw [Function.update_noteq hv] at h; exact bnd v q h
      · intro u v q hne hu hv
        by_cases huw : u = w
        · subst huw; rw [Function.update_same] at hu; simp [phaseClaims] at hu
        · rw [Function.update_noteq huw] at hu
          by_cases hvw : v = w
          · subst hvw; rw [Function.update_same] at hv
            simp [phaseClaims] at hv
          · rw [Function.update_noteq hvw] at hv; exact excl u v q hne hu hv
      · intro v q h
        by_cases hv : v = w
        · subst hv; rw [Function.update_same] at h; simp [phaseClaims] at h
        · rw [Function.update_noteq hv] at h; exact fresh v q h
  | giveUp w snap hw =>
      refine ⟨?_, ?_, asg, ?_, ?_, nodup⟩
      all_goals dsimp only
      · intro v q h
        by_cases hv : v = w
        · subst hv; rw [Function.update_same] at h; simp [phaseLocks] at h
        · rw [Function.update_noteq hv] at h; exact res v q h
      · intro v q h
        by_cases hv : v = w
        · subst hv; rw [Function.update_same] at h; simp [phaseBound] at h
        · rw [Function.update_noteq hv] at h; exact bnd v q h
      · intro u v q hne hu hv
        by_cases huw : u = w
        · subst huw; rw [Function.update_same] at hu; simp [phaseClaims] at hu
        · rw [Function.update_noteq huw] at hu
          by_cases hvw : v = w
          · subst hvw; rw [Function.update_same] at hv
            simp [phaseClaims] at hv
          · rw [Function.update_noteq hvw] at hv; exact excl u v q hne hu hv
      · intro v q h
        by_cases hv : v = w
        · subst hv; rw [Function.update_same] at h; simp [phaseClaims] at h
        · rw [Function.update_noteq hv] at h; exact fresh v q h
  | skip w p hw =>
      refine ⟨?_, ?_, asg, ?_, ?_, nodup⟩
      all_goals dsimp only
      · intro v q h
        by_cases hv : v = w
        · subst hv; rw [Function.update_same] at h; simp [phaseLocks] at h
        · rw [Function.update_noteq hv] at h; exact res v q h
      · intro v q h
        by_cases hv : v = w
        · subst hv; rw [Function.update_same] at h; simp [phaseBound] at h
        · rw [Function.update_noteq hv] at h; exact bnd v q h
      · intro u v q hne hu hv
        by_cases huw : u = w
        · subst huw; rw [Function.update_same] at hu; simp [phaseClaims] at hu
        · rw [Function.update_noteq huw] at hu
          by_cases hvw : v = w
          · subst hvw; rw [Function.update_same] at hv
            simp [phaseClaims] at hv
          · rw [Function.update_noteq hvw] at hv; exact excl u v q hne hu hv
      · intro v q h
        by_cases hv : v = w
        · subst hv; rw [Function.update_same] at h; simp [phaseClaims] at h
        · rw [Function.update_noteq hv] at h; exact fresh v q h
  | reserve w p snap hw hsnap hres hbnd =>
      refine ⟨?_, ?_, asg, ?_, ?_, nodup⟩
      all_goals dsimp only
      · intro v q h
        by_cases hv : v = w
        · subst hv; rw [Function.update_same] at h
          simp only [phaseLocks] at h; subst h
          exact List.mem_cons_self _ _
        · rw [Function.update_noteq hv] at h
          exact List.mem_cons_of_mem _ (res v q h)
      · intro v q h
        by_cases hv : v = w
        · subst hv; rw [Function.update_same] at h; simp [phaseBound] at h
        · rw [Function.update_noteq hv] at h; exact bnd v q h
      · intro u v q hne hu hv
        by_cases huw : u = w
        · subst huw
          rw [Function.update_same] at hu
          simp only [phaseClaims] at hu; subst hu
          rw [Function.update_noteq (fun hvw => hne hvw.symm)] at hv
          rcases PoolInv.mem_of_claims ⟨res, bnd, asg, excl, fresh, nodup⟩ hv
            with hmem | hmem
          · exact hres hmem
          · exact hbnd hmem
        · rw [Function.update_noteq huw] at hu
          by_cases hvw : v = w
          · subst hvw
            rw [Function.update_same] at hv
            simp only [phaseClaims] at hv; subst hv
            rcases PoolInv.mem_of_claims ⟨res, bnd, asg, excl, fresh, nodup⟩ hu
              with hmem | hmem
            · exact hres hmem
            · exact hbnd hmem
          · rw [Function.update_noteq hvw] at hv; exact excl u v q hne hu hv
      · intro v q h
        by_cases hv : v = w
        · subst hv; rw [Function.update_same] at h
          simp only [phaseClaims] at h; subst h
          intro hmem
          rcases List.mem_map.mp hmem with ⟨wp, hwp, hsnd⟩
          exact hbnd (hsnd ▸ asg wp hwp)
        · rw [Function.update_noteq hv] at h; exact fresh v q h
  | startOk w p hw =>
      have hwclaim : phaseClaims (s.phase w) p := by rw [hw]; rfl
      refine ⟨?_, ?_, ?_, ?_, ?_, nodup⟩
      all_goals dsimp only
      · intro v q h
        by_cases hv : v = w
        · subst hv; rw [Function.update_same] at h
          simp only [phaseLocks] at h; subst h
          exact res v q (by rw [hw]; rfl)
        · rw [Function.update_noteq hv] at h; exact res v q h
      · intro v q h
        by_cases hv : v = w
        · subst hv; rw [Function.update_same] at h
          have hqp : q = p := h
          subst hqp
          exact List.mem_cons_self _ _
        · rw [Function.update_noteq hv] at h
          exact List.mem_cons_of_mem _ (bnd v q h)
      · intro wp hwp
        exact List.mem_cons_of_mem _ (asg wp hwp)
      · intro u v q hne hu hv
        have hu' : phaseClaims (s.phase u) q := by
          by_cases huw : u = w
          · subst huw; rw [Function.update_same] at hu
            simp only [phaseClaims] at hu; subst hu
            exact hwclaim
          · rwa [Function.update_noteq huw] at hu
        have hv' : phaseClaims (s.phase v) q := by
          by_cases hvw : v = w
          · subst hvw; rw [Function.update_same] at hv
            simp only [phaseClaims] at hv; subst hv
            exact hwclaim
          · rwa [Function.update_noteq hvw] at hv
        exact excl u v q hne hu' hv'
      · intro v q h
        by_cases hv : v = w
        · subst hv; rw [Function.update_same] at h
          simp only [phaseClaims] at h; subst h
          exact fresh v q hwclaim
        · rw [Function.update_noteq hv] at h; exact fresh v q h
  | startFail w p hw =>
      have hwclaim : phaseClaims (s.phase w) p := by rw [hw]; rfl
      refine ⟨?_, ?_, asg, ?_, ?_, nodup⟩
      all_goals dsimp only
      · intro v q h
        by_cases hv : v = w
        · subst hv; rw [Function.update_same] at h
          simp only [phaseLocks] at h; subst h
          exact res v q (by rw [hw]; rfl)
        · rw [Function.update_noteq hv] at h; exact res v q h
      · intro v q h
        by_cases hv : v = w
        · subst hv; rw [Function.update_same] at h; simp [phaseBound] at h
        · rw [Function.update_noteq hv] at h; exact bnd v q h
      · intro u v q hne hu hv
        have hu' : phaseClaims (s.phase u) q := by
          by_cases huw : u = w
          · subst huw; rw [Function.update_same] at hu
            simp only [phaseClaims] at hu; subst hu
            exact hwclaim
          · rwa [Function.update_noteq huw] at hu
        have hv' : phaseClaims (s.phase v) q := by
          by_cases hvw : v = w
          · subst hvw; rw [Function.update_same] at hv
            simp only [phaseClaims] at hv; subst hv
            exact hwclaim
          · rwa [Function.update_noteq hvw] at hv
        exact excl u v q hne hu' hv'
      · intro v q h
        by_cases hv : v = w
        · subst hv; rw [Function.update_same] at h
          simp only [phaseClaims] at h; subst h
          exact fresh v q hwclaim
        · rw [Function.update_noteq hv] at h; exact fresh v q h
  | release w p ok hw =>
      have hwclaim : phaseClaims (s.phase w) p := by rw [hw]; rfl
      refine ⟨?_, ?_, asg, ?_, ?_, nodup⟩
      all_goals dsimp only
      · intro v q h
        by_cases hv : v = w
        · subst hv; rw [Function.update_same] at h; simp [phaseLocks] at h
        · rw [Function.update_noteq hv] at h
          have hq : q ∈ s.reserved := res v q h
          have hqp : q ≠ p := by
            intro hqp; subst hqp
            exact excl v w q (fun hvw => hv hvw)
              (phaseClaims_of_phaseLocks _ _ h) hwclaim
          exact (List.mem_erase_of_ne hqp).mpr hq
      · intro v q h
        by_cases hv : v = w
        · subst hv; rw [Function.update_same] at h
          cases ok with
          | false => simp [phaseBound] at h
          | true =>
              have hqp : q = p := h
              subst hqp
              exact bnd v q (by rw [hw]; rfl)
        · rw [Function.update_noteq hv] at h; exact bnd v q h
      · intro u v q hne hu hv
        have hu' : phaseClaims (s.phase u) q := by
          by_cases huw : u = w
          · subst huw; rw [Function.update_same] at hu
            cases ok with
            | false => simp [phaseClaims] at hu
            | true =>
                have hqp : q = p := hu
                subst hqp
                exact hwclaim
          · rwa [Function.update_noteq huw] at hu
        have hv' : phaseClaims (s.phase v) q := by
          by_cases hvw : v = w
          · subst hvw; rw [Function.update_same] at hv
            cases ok with
            | false => simp [phaseClaims] at hv
            | true =>
                have hqp : q = p := hv
                subst hqp
                exact hwclaim
          · rwa [Function.update_noteq hvw] at hv
        exact excl u v q hne hu' hv'
      · intro v q h
        by_cases hv : v = w
        · subst hv; rw [Function.update_same] at h
          cases ok with
          | false => simp [phaseClaims] at h
          | true =>
              have hqp : q = p := h
              subst hqp
              exact fresh v q hwclaim
        · rw [Function.update_noteq hv] at h; exact fresh v q h
  | assign w p hw =>
      have hwclaim : phaseClaims (s.phase w) p := by rw [hw]; rfl
      refine ⟨?_, ?_, ?_, ?_, ?_, ?_⟩
      all_goals dsimp only
      · intro v q h
        by_cases hv : v = w
        · subst hv; rw [Function.update_same] at h; simp [phaseLocks] at h
        · rw [Function.update_noteq hv] at h; exact res v q h
      · intro v q h
        by_cases hv : v = w
        · subst hv; rw [Function.update_same] at h; simp [phaseBound] at h
        · rw [Function.update_noteq hv] at h; exact bnd v q h
      · intro wp hwp
        rcases List.mem_cons.mp hwp with hwp | hwp
        · subst hwp
          exact bnd w p (by rw [hw]; rfl)
        · exact asg wp hwp
      · intro u v q hne hu hv
        by_cases huw : u = w
        · subst huw; rw [Function.update_same] at hu; simp [phaseClaims] at hu
        · rw [Function.update_noteq huw] at hu
          by_cases hvw : v = w
          · subst hvw; rw [Function.update_same] at hv
            simp [phaseClaims] at hv
          · rw [Function.update_noteq hvw] at hv; exact excl u v q hne hu hv
      · intro v q h
        by_cases hv : v = w
        · subst hv; rw [Function.update_same] at h; simp [phaseClaims] at h
        · rw [Function.update_noteq hv] at h
          simp only [List.map_cons, List.mem_cons]
          rintro (hqp | hmem)
          · exact excl v w q (fun hvw => hv hvw) h
              (by rw [hqp]; exact hwclaim)
          · exact fresh v q h hmem
      · simp only [List.map_cons]
        exact List.nodup_cons.mpr ⟨fresh w p hwclaim, nodup⟩

/-- Every reachable pool state satisfies the invariant. -/
theorem pool_inv_reachable {n : Nat} {s : PoolState n}
    (h : PoolReachable n s) : PoolInv s := by
  induction h with
  | init bound0 => exact pool_inv_init n bound0
  | step _ hstep ih => exact pool_inv_step ih hstep

/-! ## Claim C3 -/

/-- C3: in every interleaving of the auto-connect worker pool, no two
profiles are ever assigned the same proxy port (the ports recorded in
`assigned` are pairwise distinct), and a port reserved by one worker — added
to the shared reservation set under the lock and not yet released — can
neither be reserved by another worker nor appear among the assigned ports. -/
theorem c3_no_double_port_allocation (n : Nat) (s : PoolState n)
    (h : PoolReachable n s) :
    (s.assigned.map Prod.snd).Nodup ∧
    ∀ w v p, inLock s w p →
      p ∉ s.assigned.map Prod.snd ∧ (v ≠ w → ¬ inLock s v p) := by
  have hinv := pool_inv_reachable h
  refine ⟨hinv.nodup, fun w v p hw => ?_⟩
  have hwclaim := phaseClaims_of_phaseLocks _ _ hw
  refine ⟨hinv.fresh w p hwclaim, fun hne hv => ?_⟩
  exact hinv.excl w v p (fun hwv => hne hwv.symm) hwclaim
    (phaseClaims_of_phaseLocks _ _ hv)

/-- The initial pool state for two workers with ports 60000 and 60001
already bound on the host. -/
def poolInit2 : PoolState 2 :=
  ⟨fun _ => .idle, [], [60000, 60001], []⟩

/-- C3 witness: the safety theorem at a concrete reachable state. -/
theorem c3_no_double_port_allocation_witness :
    (poolInit2.assigned.map Prod.snd).Nodup ∧
    ∀ w v p, inLock poolInit2 w p →
      p ∉ poolInit2.assigned.map Prod.snd ∧ (v ≠ w → ¬ inLock poolInit2 v p) :=
  c3_no_double_port_allocation 2 poolInit2 (PoolReachable.init [60000, 60001])

/-! ## Profile store (`ProfileService`) -/

/-- Python `str.strip()` over the character list. -/
def pyStrip (s : List Char) : List Char :=
  ((s.dropWhile Char.isWhitespace).reverse.dropWhile Char.isWhitespace).reverse

/-- The sanitisation of `import_from_text` (profile_service.py:119):
`"".join(c for c in name_hint.strip() if c.isalnum() or c in "-_") or "imported"`
(ASCII alphanumerics; profile names in this development use no further
Unicode `isalnum` categories). -/
def sanitize_name (hint : String) : String :=
  let kept := (pyStrip hint.data).filter fun c => c.isAlphanum || c == '-' || c == '_'
  if kept.isEmpty then "imported" else String.mk kept

/-- The `while safe_name in existing_names` suffixing loop of
`import_from_text` (profile_service.py:124-128), with explicit fuel.  The
candidates `base_1, base_2, …` are pairwise distinct, so
`existing.length + 2` iterations always suffice to leave the loop exactly as
the Python loop does. -/
def uniquify_go (base : String) (existing : List String) :
    Nat → String → Nat → String
  | 0, cur, _ => cur
  | fuel + 1, cur, idx =>
      if cur ∈ existing then
        uniquify_go base existing fuel (base ++ "_" ++ toString idx) (idx + 1)
      else cur

/-- The free name under which `import_from_text` stores a profile. -/
def uniquify_name (base : String) (existing : List String) : String :=
  uniquify_go base existing (existing.length + 2) base 1

/-- Is the first list a leading segment of the second? -/
def listLeads : List Char → List Char → Bool
  | [], _ => true
  | _ :: _, [] => false
  | a :: as, b :: bs => a == b && listLeads as bs

/-- Python `needle in hay` substring containment, over character lists. -/
def listSubstr (needle : List Char) : List Char → Bool
  | [] => listLeads needle []
  | b :: bs => listLeads needle (b :: bs) || listSubstr needle bs

/-- Python `sub in s` on strings. -/
def strContains (s sub : String) : Bool := listSubstr sub.data s.data

/-- Outcome of an import operation. -/
inductive ImportResult where
  | success (profiles : List Profile) (storedName : String)
  | duplicateName
  | fileExists
  | invalidConfig
  | ioError
deriving DecidableEq

/-- A freshly imported profile record (profile_service.py:105-108 / 135-138). -/
def newProfile (name conf_path : String) : Profile :=
  { name := name, conf_path := some conf_path, proxy_port := none,
    last_port := none, pid := none, running := false }

/-- `ProfileService.import_from_file` (profile_service.py:91-112): `name` is
`splitext(basename(file_path))[0]`, `fileBase` the file's base name,
`destExists` whether `profiles/<fileBase>` already exists on disk, `copyOk`
whether the copy succeeds.  A duplicate profile name is rejected outright. -/
def import_from_file (profiles : List Profile) (name fileBase : String)
    (destExists copyOk : Bool) : ImportResult :=
  if profiles.any fun p => p.name == name then .duplicateName
  else if destExists then .fileExists
  else if !copyOk then .ioError
  else .success (profiles ++ [newProfile name ("profiles/" ++ fileBase)]) name

/-- `ProfileService.import_from_text` (profile_service.py:114-142): rejects
text without an `[Interface]` marker, then — instead of rejecting a
duplicate name — derives a free name by numeric suffixing and stores under
it.  `writeOk` is whether the config file write succeeds. -/
def import_from_text (profiles : List Profile) (name_hint conf_text : String)
    (writeOk : Bool) : ImportResult :=
  if conf_text.isEmpty || !strContains conf_text "[Interface]" then .invalidConfig
  else
    let safe := uniquify_name (sanitize_name name_hint) (profiles.map Profile.name)
    if !writeOk then .ioError
    else .success (profiles ++ [newProfile safe ("profiles/" ++ safe ++ ".conf")])
      safe

/-- Status part of `ProfileService.update_profile`'s result. -/
inductive UpdateStatus where
  | notFound
  | duplicateName
  | fileCollision
  | renameError
  | writeError
  | updated
deriving DecidableEq

/-- Rename the first profile named `old` (the Python code mutates the object
found by `next(...)`). -/
def renameFirst (old new : String) : List Profile → List Profile
  | [] => []
  | p :: rest =>
      if p.name == old then
        { p with name := new,
                 conf_path := some ("profiles/" ++ new ++ ".conf") } :: rest
      else p :: renameFirst old new rest

/-- `ProfileService.update_profile` (profile_service.py:171-204), returning
the post-call store and a status.  `newPathExists` is whether
`profiles/<new_name>.conf` already exists on disk; `renameOk` / `writeOk`
whether the file operations succeed.  A rename to an existing profile name
is rejected with the store unchanged; note that when the rename succeeds but
the subsequent content write fails, the store keeps the rename. -/
def update_profile (profiles : List Profile) (old_name new_name : String)
    (newPathExists renameOk writeOk : Bool) : List Profile × UpdateStatus :=
  match profiles.find? (fun p => p.name == old_name) with
  | none => (profiles, .notFound)
  | some _ =>
      if old_name != new_name then
        if profiles.any fun p => p.name == new_name then (profiles, .duplicateName)
        else if newPathExists then (profiles, .fileCollision)
        else if !renameOk then (profiles, .renameError)
        else if !writeOk then (renameFirst old_name new_name profiles, .writeError)
        else (renameFirst old_name new_name profiles, .updated)
      else if !writeOk then (profiles, .writeError)
      else (profiles, .updated)

/-! ## Claim C8 -/

/-- A stored profile named "foo". -/
def profileFoo : Profile := { name := "foo" }

/-- C8 (counterexample): importing config text under the name of an existing
profile does not return a duplicate-name error — it succeeds and stores the
profile under the different, suffixed name "foo_1", growing the store. -/
theorem c8_text_import_auto_renames :
    import_from_text [profileFoo] "foo" "[Interface]\nPrivateKey = x" true
      = ImportResult.success
          [profileFoo, newProfile "foo_1" "profiles/foo_1.conf"] "foo_1" ∧
    "foo_1" ≠ "foo" := by
  constructor <;> decide

/-- Candidates built by the suffixing loop stay longer than the base name. -/
theorem uniquify_go_length (base : String) (existing : List String) :
    ∀ fuel cur idx, base.length < cur.length →
      base.length < (uniquify_go base existing fuel cur idx).length := by
  intro fuel
  induction fuel with
  | zero => intro cur idx h; exact h
  | succ m ih =>
      intro cur idx h
      rw [uniquify_go]
      split
      · refine ih (base ++ "_" ++ toString idx) (idx + 1) ?_
        rw [String.length_append, String.length_append]
        have h1 : ("_" : String).length = 1 := rfl
        omega
      · exact h

/-- When the base name is taken, the suffixing loop returns a different
(strictly longer) name. -/
theorem uniquify_name_ne (base : String) (existing : List String)
    (h : base ∈ existing) : uniquify_name base existing ≠ base := by
  rw [uniquify_name]
  show uniquify_go base existing (existing.length + 1 + 1) base 1 ≠ base
  rw [uniquify_go, if_pos h]
  intro hc
  have hlen := uniquify_go_length base existing (existing.length + 1)
    (base ++ "_" ++ toString 1) 2
    (by rw [String.length_append, String.length_append]
        have h1 : ("_" : String).length = 1 := rfl
        omega)
  rw [hc] at hlen
  omega

/-- C8 (amended): the file-based import and the rename path of
`update_profile` reject a duplicate name and leave the store unchanged;
the text-based import does not reject — when the sanitised name is already
taken it succeeds, storing the profile under a different (suffixed) name. -/
theorem c8_duplicate_name_handling (profiles : List Profile)
    (name fileBase name_hint conf_text old_name new_name : String)
    (destExists copyOk newPathExists renameOk writeOk : Bool) :
    ((∃ p ∈ profiles, p.name = name) →
      import_from_file profiles name fileBase destExists copyOk
        = .duplicateName) ∧
    ((profiles.find? (fun p => p.name == old_name)).isSome = true →
      old_name ≠ new_name → (∃ p ∈ profiles, p.name = new_name) →
      update_profile profiles old_name new_name newPathExists renameOk writeOk
        = (profiles, .duplicateName)) ∧
    (conf_text.isEmpty = false → strContains conf_text "[Interface]" = true →
      sanitize_name name_hint ∈ profiles.map Profile.name →
      ∃ stored,
        import_from_text profiles name_hint conf_text true
          = .success
              (profiles ++ [newProfile stored ("profiles/" ++ stored ++ ".conf")])
              stored ∧
        stored ≠ sanitize_name name_hint) := by
  refine ⟨?_, ?_, ?_⟩
  · rintro ⟨p, hmem, hname⟩
    rw [import_from_file,
      if_pos (List.any_eq_true.mpr ⟨p, hmem, by simp [hname]⟩)]
  · intro hfound hne hdup
    rcases hf : profiles.find? (fun p => p.name == old_name) with _ | witness
    · rw [hf] at hfound; cases hfound
    · obtain ⟨p, hmem, hname⟩ := hdup
      rw [update_profile, hf]
      rw [if_pos (by simpa using hne)]
      rw [if_pos (List.any_eq_true.mpr ⟨p, hmem, by simp [hname]⟩)]
  · intro hne hcont hmem
    refine ⟨uniquify_name (sanitize_name name_hint) (profiles.map Profile.name),
      ?_, uniquify_name_ne _ _ hmem⟩
    rw [import_from_text]
    rw [if_neg (by simp [hne, hcont])]
    rfl

/-- A stored profile named "bar". -/
def profileBar : Profile := { name := "bar" }

/-- C8 witness: the amended theorem at concrete inputs — a duplicate
file-based import is rejected, and a rename of "bar" to the taken name
"foo" is rejected with the store unchanged. -/
theorem c8_duplicate_name_handling_witness :
    import_from_file [profileFoo, profileBar] "foo" "foo.conf" false true
      = .duplicateName ∧
    update_profile [profileFoo, profileBar] "bar" "foo" false true true
      = ([profileFoo, profileBar], .duplicateName) :=
  ⟨(c8_duplicate_name_handling [profileFoo, profileBar] "foo" "foo.conf" "" ""
      "bar" "foo" false true false true true).1
      ⟨profileFoo, List.mem_cons_self _ _, rfl⟩,
   (c8_duplicate_name_handling [profileFoo, profileBar] "foo" "foo.conf" "" ""
      "bar" "foo" false true false true true).2.1
      (by decide) (by decide) ⟨profileFoo, List.mem_cons_self _ _, rfl⟩⟩

/-! ## State loading (`StateService.load_state`)

`state.json` content is embedded as JSON-like values (`jnum` carries an
integer: the state schema uses no fractional numbers).  Python exceptions
inside the `try` block become `Except.error`; `load_state` catches them and
falls back to the default state. -/

/-- JSON-like values. -/
inductive JValue where
  | null
  | jbool (b : Bool)
  | jnum (n : Int)
  | jstr (s : String)
  | jarr (xs : List JValue)
  | jobj (kvs : List (String × JValue))

/-- Dict lookup (first binding). -/
def getKey? : List (String × JValue) → String → Option JValue
  | [], _ => none
  | kv :: rest, k => if kv.1 == k then some kv.2 else getKey? rest k

/-- `dict.setdefault(k, v)`: keep an existing binding, else append. -/
def setdefault (kvs : List (String × JValue)) (k : String) (v : JValue) :
    List (String × JValue) :=
  if (getKey? kvs k).isSome then kvs else kvs ++ [(k, v)]

/-- `dict[k] = v`: overwrite the binding or append. -/
def setKey (kvs : List (String × JValue)) (k : String) (v : JValue) :
    List (String × JValue) :=
  if (getKey? kvs k).isSome then
    kvs.map fun kv => if kv.1 == k then (k, v) else kv
  else kvs ++ [(k, v)]

/-- Python truthiness of a JSON value. -/
def jFalsy : JValue → Bool
  | .null => true
  | .jbool b => !b
  | .jnum n => n == 0
  | .jstr s => s.isEmpty
  | .jarr xs => xs.isEmpty
  | .jobj kvs => kvs.isEmpty

/-- Python `int(...)` of a JSON value: numbers and booleans convert, numeric
strings parse, everything else raises. -/
def jToInt : JValue → Except Unit Int
  | .jbool b => .ok (if b then 1 else 0)
  | .jnum n => .ok n
  | .jstr s =>
      match s.toInt? with
      | some n => .ok n
      | none => .error ()
  | _ => .error ()

/-- `STATE_VERSION = 3` (state_service.py:8). -/
def STATE_VERSION : Int := 3

/-- The default state dict (state_service.py:17-24), in insertion order. -/
def defaultStateItems : List (String × JValue) :=
  [("version", .jnum STATE_VERSION), ("profiles", .jarr []),
   ("port_limit", .jnum 10), ("wireproxy_path", .null),
   ("proxy_type", .jstr "socks"), ("logging_enabled", .jbool true)]

def default_state : JValue := .jobj defaultStateItems

/-- The schema-upgrading while loop of `StateService.migrate_state`
(state_service.py:72-88); entered with version `current`; the backup and
file-write side effects do not affect the returned value. -/
def migrate_state (kvs : List (String × JValue)) (current : Int) :
    List (String × JValue) :=
  let kvs1 := if current < 2 then setdefault kvs "proxy_type" (.jstr "socks")
    else kvs
  let kvs2 := if current < 3 then setdefault kvs1 "logging_enabled" (.jbool true)
    else kvs1
  setKey kvs2 "version" (.jnum STATE_VERSION)

/-- The top-level setdefault pass followed by the migration decision
(state_service.py:34-40): the dict after `data.setdefault("version", 0)`,
optional migration for an old version, and defaulting of every top-level
key. -/
def load_kvs3 (kvs1 : List (String × JValue)) (v : Int) :
    List (String × JValue) :=
  defaultStateItems.foldl (fun acc kv => setdefault acc kv.1 kv.2)
    (if v < STATE_VERSION then migrate_state kvs1 v else kvs1)

/-- `p.setdefault(...)` for the five per-profile keys
(state_service.py:42-47); raises (`AttributeError`) on a non-dict element. -/
def fix_profile : JValue → Except Unit JValue
  | .jobj kvs =>
      .ok (.jobj (setdefault (setdefault (setdefault (setdefault (setdefault
        kvs "proxy_port" .null) "pid" .null) "running" (.jbool false))
        "conf_path" .null) "last_port" .null))
  | _ => .error ()

/-- The per-profile defaulting loop over a list of profile records. -/
def fix_profiles : List JValue → Except Unit (List JValue)
  | [] => .ok []
  | p :: rest =>
      match fix_profile p with
      | .ok q =>
          match fix_profiles rest with
          | .ok qs => .ok (q :: qs)
          | .error e => .error e
      | .error e => .error e

/-- The body of `load_state`'s `try` block after a successful `json.load`
(state_service.py:30-50).  A non-dict top level returns the default without
raising.  Iterating a non-list `profiles` value raises unless the value is
empty (Python iterates a string's characters or a dict's keys, and the
first element then lacks `setdefault`). -/
def load_body (data : JValue) : Except Unit JValue :=
  match data with
  | .jobj kvs0 =>
      let kvs1 := setdefault kvs0 "version" (.jnum 0)
      let vraw := (getKey? kvs1 "version").getD .null
      match jToInt (if jFalsy vraw then .jnum 0 else vraw) with
      | .error e => .error e
      | .ok v =>
          let kvs3 := load_kvs3 kvs1 v
          match getKey? kvs3 "profiles" with
          | some (.jarr ps) =>
              match fix_profiles ps with
              | .ok ps' => .ok (.jobj (setKey kvs3 "profiles" (.jarr ps')))
              | .error e => .error e
          | some (.jstr s) => if s.isEmpty then .ok (.jobj kvs3) else .error ()
          | some (.jobj kvs) => if kvs.isEmpty then .ok (.jobj kvs3) else .error ()
          | some _ => .error ()
          | none => .ok (.jobj kvs3)
  | _ => .ok default_state

/-- `StateService.load_state` (state_service.py:16-54): `none` models a
missing, unreadable or unparsable state file; any exception raised inside
the `try` block yields the default state. -/
def load_state (input : Option JValue) : JValue :=
  match input with
  | none => default_state
  | some data =>
      match load_body data with
      | .ok r => r
      | .error _ => default_state

/-- Does a profile record carry the five per-profile keys? -/
def goodProfile : JValue → Bool
  | .jobj kvs =>
      (getKey? kvs "proxy_port").isSome && (getKey? kvs "pid").isSome
        && (getKey? kvs "running").isSome && (getKey? kvs "conf_path").isSome
        && (getKey? kvs "last_port").isSome
  | _ => false

/-- The profile records of a state value: the elements of its `profiles`
entry when that entry is a list. -/
def profileRecords : JValue → List JValue
  | .jobj kvs =>
      match getKey? kvs "profiles" with
      | some (.jarr ps) => ps
      | _ => []
  | _ => []

/-- All six top-level configuration keys present, and every profile record
carrying the five per-profile keys. -/
def goodState (v : JValue) : Bool :=
  match v with
  | .jobj kvs =>
      (defaultStateItems.all fun kv => (getKey? kvs kv.1).isSome) &&
        (profileRecords v).all goodProfile
  | _ => false

/-! Key-presence lemmas for the dict operations. -/

theorem getKey?_append_of_isSome {kvs kvs' : List (String × JValue)}
    {k : String} (h : (getKey? kvs k).isSome = true) :
    getKey? (kvs ++ kvs') k = getKey? kvs k := by
  induction kvs with
  | nil => simp [getKey?] at h
  | cons kv rest ih =>
      rw [List.cons_append, getKey?, getKey?]
      split
      · rfl
      · rename_i hk
        rw [getKey?, if_neg hk] at h
        exact ih h

theorem getKey?_append_of_none {kvs kvs' : List (String × JValue)}
    {k : String} (h : getKey? kvs k = none) :
    getKey? (kvs ++ kvs') k = getKey? kvs' k := by
  induction kvs with
  | nil => simp
  | cons kv rest ih =>
      rw [getKey?] at h
      rw [List.cons_append, getKey?]
      split
      · rename_i hk; rw [if_pos hk] at h; cases h
      · rename_i hk; rw [if_neg hk] at h; exact ih h

theorem hasKey_setdefault_self (kvs : List (String × JValue)) (k : String)
    (v : JValue) : (getKey? (setdefault kvs k v) k).isSome = true := by
  rw [setdefault]
  split
  · assumption
  · rename_i hk
    rw [getKey?_append_of_none (Option.not_isSome_iff_eq_none.mp hk)]
    simp [getKey?]

theorem hasKey_setdefault_mono (kvs : List (String × JValue)) (k : String)
    (v : JValue) (k' : String) (h : (getKey? kvs k').isSome = true) :
    (getKey? (setdefault kvs k v) k').isSome = true := by
  rw [setdefault]
  split
  · exact h
  · rw [getKey?_append_of_isSome h]; exact h

theorem getKey?_map_set_of_isSome {kvs : List (String × JValue)} {k : String}
    (v : JValue) (h : (getKey? kvs k).isSome = true) :
    getKey? (kvs.map fun kv => if kv.1 == k then (k, v) else kv) k = some v := by
  induction kvs with
  | nil => simp [getKey?] at h
  | cons kv rest ih =>
      rw [List.map_cons]
      by_cases hk : (kv.1 == k) = true
      · rw [if_pos hk]
        rw [getKey?, if_pos (by simp)]
      · rw [if_neg hk, getKey?, if_neg hk]
        rw [getKey?, if_neg hk] at h
        exact ih h

theorem getKey?_map_set_ne {kvs : List (String × JValue)} {k k' : String}
    (v : JValue) (h : k' ≠ k) :
    getKey? (kvs.map fun kv => if kv.1 == k then (k, v) else kv) k'
      = getKey? kvs k' := by
  induction kvs with
  | nil => simp [getKey?]
  | cons kv rest ih =>
      rw [List.map_cons]
      by_cases hk : (kv.1 == k) = true
      · rw [if_pos hk, getKey?, getKey?,
          if_neg (by simpa using fun he => h he.symm),
          if_neg (by rw [show kv.1 = k from by simpa using hk]
                     simpa using fun he => h he.symm)]
        exact ih
      · rw [if_neg hk, getKey?, getKey?]
        split
        · rfl
        · exact ih

theorem getKey?_setKey_self (kvs : List (String × JValue)) (k : String)
    (v : JValue) : getKey? (setKey kvs k v) k = some v := by
  rw [setKey]
  split
  · rename_i hk; exact getKey?_map_set_of_isSome v hk
  · rename_i hk
    rw [getKey?_append_of_none (Option.not_isSome_iff_eq_none.mp hk)]
    simp [getKey?]

theorem hasKey_setKey_mono (kvs : List (String × JValue)) (k : String)
    (v : JValue) (k' : String) (h : (getKey? kvs k').isSome = true) :
    (getKey? (setKey kvs k v) k').isSome = true := by
  by_cases hk : k' = k
  · subst hk; rw [getKey?_setKey_self]; rfl
  · rw [setKey]
    split
    · rw [getKey?_map_set_ne v hk]; exact h
    · rw [getKey?_append_of_isSome h]; exact h

theorem hasKey_foldl_setdefault_mono (items : List (String × JValue)) :
    ∀ (acc : List (String × JValue)) (k : String),
      (getKey? acc k).isSome = true →
      (getKey? (items.foldl (fun a kv => setdefault a kv.1 kv.2) acc) k).isSome
        = true := by
  induction items with
  | nil => intro acc k h; exact h
  | cons x xs ih =>
      intro acc k h
      exact ih _ k (hasKey_setdefault_mono _ _ _ _ h)

theorem hasKey_foldl_setdefault_items (items : List (String × JValue)) :
    ∀ (acc : List (String × JValue)) (kv : String × JValue), kv ∈ items →
      (getKey? (items.foldl (fun a kv => setdefault a kv.1 kv.2) acc) kv.1).isSome
        = true := by
  induction items with
  | nil => intro acc kv h; cases h
  | cons x xs ih =>
      intro acc kv h
      rcases List.mem_cons.mp h with h | h
      · subst h
        exact hasKey_foldl_setdefault_mono xs _ _
          (hasKey_setdefault_self _ _ _)
      · exact ih _ kv h

/-- Every top-level configuration key is present after the defaulting pass. -/
theorem hasKey_load_kvs3 (kvs1 : List (String × JValue)) (v : Int)
    (kv : String × JValue) (h : kv ∈ defaultStateItems) :
    (getKey? (load_kvs3 kvs1 v) kv.1).isSome = true :=
  hasKey_foldl_setdefault_items defaultStateItems _ kv h

/-- A profile record surviving `fix_profile` carries all five keys. -/
theorem fix_profile_good (p q : JValue) (h : fix_profile p = .ok q) :
    goodProfile q = true := by
  cases p with
  | jobj kvs =>
      rw [fix_profile] at h
      injection h with h
      subst h
      rw [goodProfile]
      simp only [Bool.and_eq_true]
      refine ⟨⟨⟨⟨?_, ?_⟩, ?_⟩, ?_⟩, ?_⟩
      · exact hasKey_setdefault_mono _ _ _ _ (hasKey_setdefault_mono _ _ _ _
          (hasKey_setdefault_mono _ _ _ _ (hasKey_setdefault_mono _ _ _ _
            (hasKey_setdefault_self _ _ _))))
      · exact hasKey_setdefault_mono _ _ _ _ (hasKey_setdefault_mono _ _ _ _
          (hasKey_setdefault_mono _ _ _ _ (hasKey_setdefault_self _ _ _)))
      · exact hasKey_setdefault_mono _ _ _ _ (hasKey_setdefault_mono _ _ _ _
          (hasKey_setdefault_self _ _ _))
      · exact hasKey_setdefault_mono _ _ _ _ (hasKey_setdefault_self _ _ _)
      · exact hasKey_setdefault_self _ _ _
  | null => simp [fix_profile] at h
  | jbool b => simp [fix_profile] at h
  | jnum n => simp [fix_profile] at h
  | jstr s => simp [fix_profile] at h
  | jarr xs => simp [fix_profile] at h

theorem fix_profiles_good (ps : List JValue) :
    ∀ ps', fix_profiles ps = .ok ps' → ps'.all goodProfile = true := by
  induction ps with
  | nil =>
      intro ps' h
      rw [fix_profiles] at h
      injection h with h
      subst h
      rfl
  | cons p rest ih =>
      intro ps' h
      rw [fix_profiles] at h
      rcases hp : fix_profile p with _ | q
      all_goals rw [hp] at h
      · cases h
      · rcases hr : fix_profiles rest with _ | qs
        all_goals rw [hr] at h
        · cases h
        · injection h with h
          subst h
          rw [List.all_cons, Bool.and_eq_true]
          exact ⟨fix_profile_good p q hp, ih qs hr⟩

/-- The six top-level keys are present in a state built on `load_kvs3`. -/
theorem topKeys_of_kvs3 (kvs1 : List (String × JValue)) (v : Int)
    (K : List (String × JValue))
    (hmono : ∀ k, (getKey? (load_kvs3 kvs1 v) k).isSome = true →
      (getKey? K k).isSome = true) :
    (defaultStateItems.all fun kv => (getKey? K kv.1).isSome) = true := by
  rw [List.all_eq_true]
  intro kv hkv
  exact hmono kv.1 (hasKey_load_kvs3 kvs1 v kv hkv)

/-! ## Claim C10 -/

/-- C10: for every state-file content — missing, unreadable, non-dict, an
old schema version, or profiles with absent keys — `load_state` returns a
dict carrying all six top-level configuration keys in which every profile
record has `proxy_port`, `pid`, `running`, `conf_path` and `last_port`
present; exceptions inside the loader are caught (modelled by `Except`) and
yield the default state, so loading never raises. -/
theorem c10_load_state_robust (input : Option JValue) :
    goodState (load_state input) = true := by
  have hdefault : goodState default_state = true := by decide
  cases input with
  | none => exact hdefault
  | some data =>
      rw [load_state]
      rcases hb : load_body data with _ | r
      · exact hdefault
      · dsimp only
        -- the try body succeeded: analyse it
        cases data with
        | jobj kvs0 =>
            rw [load_body] at hb
            dsimp only at hb
            rcases hv : jToInt
                (if jFalsy ((getKey? (setdefault kvs0 "version" (.jnum 0))
                    "version").getD .null) then .jnum 0
                 else (getKey? (setdefault kvs0 "version" (.jnum 0))
                    "version").getD .null) with _ | v
            all_goals rw [hv] at hb
            all_goals try dsimp only at hb
            · cases hb
            · rcases hgp : getKey?
                  (load_kvs3 (setdefault kvs0 "version" (.jnum 0)) v)
                  "profiles" with _ | gv
              all_goals rw [hgp] at hb
              all_goals try dsimp only at hb
              · -- no "profiles" key (unreachable, but harmless)
                injection hb with hb
                subst hb
                rw [goodState, Bool.and_eq_true]
                constructor
                · exact topKeys_of_kvs3 _ v _ (fun k h => h)
                · rw [profileRecords, hgp]; rfl
              · cases gv with
                | jarr ps =>
                    try dsimp only at hb
                    rcases hfp : fix_profiles ps with _ | ps'
                    all_goals rw [hfp] at hb
                    all_goals try dsimp only at hb
                    · cases hb
                    · injection hb with hb
                      subst hb
                      rw [goodState, Bool.and_eq_true]
                      constructor
                      · exact topKeys_of_kvs3 _ v _
                          (fun k h => hasKey_setKey_mono _ _ _ _ h)
                      · rw [profileRecords, getKey?_setKey_self]
                        exact fix_profiles_good ps ps' hfp
                | jstr s =>
                    try dsimp only at hb
                    split at hb
                    · injection hb with hb
                      subst hb
                      rw [goodState, Bool.and_eq_true]
                      constructor
                      · exact topKeys_of_kvs3 _ v _ (fun k h => h)
                      · rw [profileRecords, hgp]; rfl
                    · cases hb
                | jobj kvsp =>
                    try dsimp only at hb
                    split at hb
                    · injection hb with hb
                      subst hb
                      rw [goodState, Bool.and_eq_true]
                      constructor
                      · exact topKeys_of_kvs3 _ v _ (fun k h => h)
                      · rw [profileRecords, hgp]; rfl
                    · cases hb
                | null => cases hb
                | jbool b => cases hb
                | jnum m => cases hb
        | null =>
            have hb2 : (Except.ok default_state : Except Unit JValue)
                = Except.ok r := hb
            injection hb2 with hb2
            subst hb2
            exact hdefault
        | jbool b =>
            have hb2 : (Except.ok default_state : Except Unit JValue)
                = Except.ok r := hb
            injection hb2 with hb2
            subst hb2
            exact hdefault
        | jnum m =>
            have hb2 : (Except.ok default_state : Except Unit JValue)
                = Except.ok r := hb
            injection hb2 with hb2
            subst hb2
            exact hdefault
        | jstr s =>
            have hb2 : (Except.ok default_state : Except Unit JValue)
                = Except.ok r := hb
            injection hb2 with hb2
            subst hb2
            exact hdefault
        | jarr xs =>
            have hb2 : (Except.ok default_state : Except Unit JValue)
                = Except.ok r := hb
            injection hb2 with hb2
            subst hb2
            exact hdefault

end WireproxyGui
